import Mathlib

/-!
Verification of the computational core of the 1-D elastic dislocation
slip-rate inversion notebook
(src/01_1D-elastic-dislocation-modeling/ex01_1D_slip_rate_inversion_gnss.ipynb).

The notebook's analytical pipeline is embedded shallowly over the reals:

* the Velocity Projector (dot product of east/north velocity with the unit
  fault-parallel vector, and error propagation);
* the Forward Model `v(x) = (s/pi) * arctan(x/D) + v_shift`;
* the Misfit Evaluator
  `WRSS = matmul(matmul(v_data - v_forward, diag(v_err**2)), (v_data - v_forward)^T)`
  (note: the notebook weights by `v_err**2`, the variance, not its inverse);
* the fault/profile geometry built from two planar fault vertices
  (the geographic-to-UTM conversion is an external collaborator and the
  planar vertices are taken as inputs);
* the grid search of section 6, including Python's banker's rounding in the
  grid-size computation, `numpy.linspace` value generation, the analytic
  per-cell offset `v_shift = mean(v_data - v_forward)`, and the best-model
  extraction `np.where(WRSS == WRSS_best)` followed by `.item()`, which
  yields a value only when the minimising cell is unique.
-/

namespace Ecd

open Real

/-! ## Misfit Evaluator (notebook section 5) -/

/-- Residual vector `v_data - v_forward` (elementwise difference of the two
parallel arrays). -/
def resid (v_obs v_model : List ℝ) : List ℝ := List.zipWith (fun a b => a - b) v_obs v_model

/-- Penalty kernel of the notebook:
`matmul(matmul(r, diag(e**2)), r^T) = sum_i r_i * e_i^2 * r_i`.
The weight applied to station `i` is `e_i^2` (its error variance). -/
def wrssKernel (r e : List ℝ) : ℝ :=
  (List.zipWith (fun ri ei => ri * ei ^ 2 * ri) r e).sum

/-- The notebook's misfit evaluator:
`WRSS = np.matmul(np.matmul((v_data-v_forward), np.diag(v_err**2)), (v_data-v_forward).T)`. -/
def WRSS (v_obs v_model v_err : List ℝ) : ℝ :=
  wrssKernel (resid v_obs v_model) v_err

/-! ## Forward Model (notebook section 5) -/

/-- The notebook's forward model
`v_forward = (s/np.pi)*np.arctan(x_data/D) + v_shift`, at a single profile
distance `x`. -/
noncomputable def v_forward (s D offset x : ℝ) : ℝ :=
  (s / Real.pi) * Real.arctan (x / D) + offset

/-- Vectorised forward model: the notebook evaluates the same expression on a
whole array of distances in one call. -/
noncomputable def v_forward_vec (s D offset : ℝ) (xs : List ℝ) : List ℝ :=
  xs.map (v_forward s D offset)

/-! ## Velocity Projector (notebook section 4) -/

/-- Fault-parallel velocity `v_data = selected_gnss[:,[2,3]].dot(fault_uv)`:
dot product of the (east, north) velocity with the unit fault-parallel
vector `(ue, un)`. -/
def v_data_of (ve vn ue un : ℝ) : ℝ := ve * ue + vn * un

/-- Propagated fault-parallel error
`v_err = np.sqrt((e_err*fault_uv[0])**2 + (n_err*fault_uv[1])**2)`. -/
noncomputable def v_err_of (ee en ue un : ℝ) : ℝ :=
  Real.sqrt ((ee * ue) ^ 2 + (en * un) ^ 2)

/-! ## Fault and profile geometry (notebook sections 2-3)

The geographic-to-UTM conversion is an external collaborator (spec section 1
excludes coordinate-reference-system utilities), so the two fault vertices
are taken directly as planar (easting, northing) coordinates in meters. -/

/-- Degrees-to-radians conversion, `np.radians`. -/
noncomputable def radians (d : ℝ) : ℝ := d * Real.pi / 180

/-- Radians-to-degrees conversion, `np.degrees`. -/
noncomputable def degrees (r : ℝ) : ℝ := r * 180 / Real.pi

/-- Two-argument arctangent: `np.arctan2 a b` is the angle of the planar
point with abscissa `b` and ordinate `a`, which is the complex argument of
`b + a*I`. -/
noncomputable def arctan2 (a b : ℝ) : ℝ := Complex.arg ⟨b, a⟩

/-- Planar fault geometry: the two fault vertices in the local planar frame
(`fault_vertex_utm1 = (x1, y1)`, `fault_vertex_utm2 = (x2, y2)`). -/
structure Fault where
  x1 : ℝ
  y1 : ℝ
  x2 : ℝ
  y2 : ℝ

/-- Fault length `np.sqrt(fault_dx**2 + fault_dy**2)` computed from the raw
vertex differences. -/
noncomputable def fault_length (f : Fault) : ℝ :=
  Real.sqrt ((f.x2 - f.x1) ^ 2 + (f.y2 - f.y1) ^ 2)

/-- First component of the unit fault-parallel vector (the notebook divides
the raw difference by the fault length in place). -/
noncomputable def fault_dx (f : Fault) : ℝ := (f.x2 - f.x1) / fault_length f

/-- Second component of the unit fault-parallel vector. -/
noncomputable def fault_dy (f : Fault) : ℝ := (f.y2 - f.y1) / fault_length f

/-- Fault strike `np.degrees(np.arctan2(fault_dx, fault_dy))` (azimuth from
north, in degrees). -/
noncomputable def fault_strike (f : Fault) : ℝ :=
  degrees (arctan2 (fault_dx f) (fault_dy f))

/-- Profile direction `prof_dx = np.sin(np.radians(fault_strike - 90))`. -/
noncomputable def prof_dx (f : Fault) : ℝ :=
  Real.sin (radians (fault_strike f - 90))

/-- Profile direction `prof_dy = np.cos(np.radians(fault_strike - 90))`. -/
noncomputable def prof_dy (f : Fault) : ℝ :=
  Real.cos (radians (fault_strike f - 90))

/-- Box corner `[fault_vertex_utm1 - half_length*1000*prof_uv]` (first row of
`box_vertices_utm`); `h` is the profile half-length in km. -/
noncomputable def box_v1 (f : Fault) (h : ℝ) : ℝ × ℝ :=
  (f.x1 - h * 1000 * prof_dx f, f.y1 - h * 1000 * prof_dy f)

/-- Box corner `[fault_vertex_utm1 + half_length*1000*prof_uv]` (second row). -/
noncomputable def box_v2 (f : Fault) (h : ℝ) : ℝ × ℝ :=
  (f.x1 + h * 1000 * prof_dx f, f.y1 + h * 1000 * prof_dy f)

/-- Box corner `[fault_vertex_utm2 + half_length*1000*prof_uv]` (third row). -/
noncomputable def box_v3 (f : Fault) (h : ℝ) : ℝ × ℝ :=
  (f.x2 + h * 1000 * prof_dx f, f.y2 + h * 1000 * prof_dy f)

/-- Box corner `[fault_vertex_utm2 - half_length*1000*prof_uv]` (fourth row). -/
noncomputable def box_v4 (f : Fault) (h : ℝ) : ℝ × ℝ :=
  (f.x2 - h * 1000 * prof_dx f, f.y2 - h * 1000 * prof_dy f)

/-- First profile vertex: the mean of box rows 0 and 3
(`prof_vertices_utm[0]`). -/
noncomputable def prof_vertex1 (f : Fault) (h : ℝ) : ℝ × ℝ :=
  (((box_v1 f h).1 + (box_v4 f h).1) / 2, ((box_v1 f h).2 + (box_v4 f h).2) / 2)

/-- Second profile vertex: the mean of box rows 1 and 2
(`prof_vertices_utm[1]`). -/
noncomputable def prof_vertex2 (f : Fault) (h : ℝ) : ℝ × ℝ :=
  (((box_v2 f h).1 + (box_v3 f h).1) / 2, ((box_v2 f h).2 + (box_v3 f h).2) / 2)

/-- Profile origin
`np.array([np.mean(prof_vertices_utm[:,0]), np.mean(prof_vertices_utm[:,1])])`. -/
noncomputable def profile_origin (f : Fault) (h : ℝ) : ℝ × ℝ :=
  (((prof_vertex1 f h).1 + (prof_vertex2 f h).1) / 2,
   ((prof_vertex1 f h).2 + (prof_vertex2 f h).2) / 2)

/-- Signed along-profile distance of a station at planar position
`(sx, sy)`: `x_data = gnss_position.dot(prof_uv)/1000` with
`gnss_position = station - profile_origin` and `prof_uv = (prof_dx, prof_dy)`. -/
noncomputable def x_data (f : Fault) (h sx sy : ℝ) : ℝ :=
  ((sx - (profile_origin f h).1) * prof_dx f +
   (sy - (profile_origin f h).2) * prof_dy f) / 1000

/-- Concrete north-striking fault of length 2 between planar vertices
`(0,0)` and `(0,2)`, used for concrete evaluations. -/
def faultNS : Fault := ⟨0, 0, 0, 2⟩

/-! ## Grid Search Optimizer (notebook section 6) -/

/-- Rounding of Python's built-in `round`: nearest integer, ties to the even
integer (banker's rounding), as used in `n_s = round(1+(s_max-s_min)/s_step)`. -/
def pyRound (q : ℚ) : ℤ :=
  if q - ⌊q⌋ < 1/2 then ⌊q⌋
  else if 1/2 < q - ⌊q⌋ then ⌊q⌋ + 1
  else if Even ⌊q⌋ then ⌊q⌋ else ⌊q⌋ + 1

/-- Model of `np.linspace a b n`: `n` evenly spaced values from `a` to `b`
inclusive. -/
noncomputable def linspace (a b : ℝ) (n : ℕ) : List ℝ :=
  if n = 0 then []
  else if n = 1 then [a]
  else (List.range n).map fun i => a + (i : ℝ) * (b - a) / ((n : ℝ) - 1)

/-- Grid-search configuration: the inclusive parameter ranges and step sizes
set at the top of the notebook's grid-search cell. The notebook enters them
as decimal literals, modeled as rationals. -/
structure GridCfg where
  s_min : ℚ
  s_max : ℚ
  s_step : ℚ
  D_min : ℚ
  D_max : ℚ
  D_step : ℚ

/-- Number of slip-rate values, `n_s = round(1+(s_max-s_min)/s_step)`. -/
def n_s (c : GridCfg) : ℕ := (pyRound (1 + (c.s_max - c.s_min) / c.s_step)).toNat

/-- Number of locking-depth values, `n_D = round(1+(D_max-D_min)/D_step)`. -/
def n_D (c : GridCfg) : ℕ := (pyRound (1 + (c.D_max - c.D_min) / c.D_step)).toNat

/-- Slip-rate axis `s_set = np.linspace(s_min, s_max, n_s)`. -/
noncomputable def s_set (c : GridCfg) : List ℝ :=
  linspace (c.s_min : ℝ) (c.s_max : ℝ) (n_s c)

/-- Locking-depth axis `D_set = np.linspace(D_min, D_max, n_D)`. -/
noncomputable def D_set (c : GridCfg) : List ℝ :=
  linspace (c.D_min : ℝ) (c.D_max : ℝ) (n_D c)

/-- Row-major traversal of the grid indices, the notebook's nested loop
`for i in range(n_D): for j in range(n_s)`; `i` indexes `D_set` and `j`
indexes `s_set` (via `Dv[i,j] = D_set[i]`, `sv[i,j] = s_set[j]`). -/
def cells (c : GridCfg) : List (ℕ × ℕ) :=
  (List.range (n_D c)).flatMap fun i => (List.range (n_s c)).map fun j => (i, j)

/-- Arithmetic mean `np.mean`. -/
noncomputable def mean (l : List ℝ) : ℝ := l.sum / l.length

/-- Per-cell analytic offset `v_shift = np.mean(v_data - v_forward)` with
`v_forward = (s/np.pi)*np.arctan(x_data/D)` (no shift). -/
noncomputable def cellShift (xd vd : List ℝ) (s D : ℝ) : ℝ :=
  mean (resid vd (xd.map fun x => (s / Real.pi) * Real.arctan (x / D)))

/-- Penalty of one grid cell:
`WRSS[i,j] = matmul(matmul(v_data-v_forward-v_shift, diag(v_err**2)), (v_data-v_forward-v_shift).T)`. -/
noncomputable def cellWRSS (xd vd ve : List ℝ) (s D : ℝ) : ℝ :=
  wrssKernel
    (List.zipWith (fun a b => a - b - cellShift xd vd s D) vd
      (xd.map fun x => (s / Real.pi) * Real.arctan (x / D)))
    ve

/-- Penalty surface entry at grid index `(i, j)`. -/
noncomputable def penaltyAt (c : GridCfg) (xd vd ve : List ℝ) (ij : ℕ × ℕ) : ℝ :=
  cellWRSS xd vd ve ((s_set c).getD ij.2 0) ((D_set c).getD ij.1 0)

/-- The full penalty surface, in row-major order. -/
noncomputable def surface (c : GridCfg) (xd vd ve : List ℝ) : List ℝ :=
  (cells c).map (penaltyAt c xd vd ve)

/-- Minimum of a list of reals (`np.amin`; an empty array has none). -/
noncomputable def listMin : List ℝ → Option ℝ
  | [] => none
  | x :: xs => some ((listMin xs).elim x (min x))

/-- Best penalty `WRSS_best = np.amin(WRSS)`. -/
noncomputable def WRSS_best (c : GridCfg) (xd vd ve : List ℝ) : ℝ :=
  (listMin (surface c xd vd ve)).getD 0

open scoped Classical in
/-- Index set `best_model = np.where(WRSS == WRSS_best)`: all grid indices
whose penalty equals the minimum, in row-major order. -/
noncomputable def best_models (c : GridCfg) (xd vd ve : List ℝ) : List (ℕ × ℕ) :=
  (cells c).filter fun ij => decide (penaltyAt c xd vd ve ij = WRSS_best c xd vd ve)

/-- The best-model extraction `s_best = sv[best_model].item()` and
`D_best = Dv[best_model].item()`: numpy's `.item()` yields a scalar only
when the index array selects exactly one element, and raises `ValueError`
otherwise (modeled as `none`). -/
noncomputable def gridSearch (c : GridCfg) (xd vd ve : List ℝ) : Option (ℝ × ℝ) :=
  if (best_models c xd vd ve).length = 1 then
    some ((s_set c).getD ((best_models c xd vd ve).headD (0, 0)).2 0,
          (D_set c).getD ((best_models c xd vd ve).headD (0, 0)).1 0)
  else none

/-- Concrete grid with two slip rates `{10, 11}` and two depths `{1, 2}`. -/
def cfgTie : GridCfg := ⟨10, 11, 1, 1, 2, 1⟩

/-- Concrete degenerate grid with the single cell `s = 1, D = 1`. -/
def cfgOne : GridCfg := ⟨1, 1, 1, 1, 1, 1⟩

/-- Concrete grid with slip rate `{1}` and NEGATIVE depths `{-2, -1}`
(`D_min = -2 <= 0`). -/
def cfgNeg : GridCfg := ⟨1, 1, 1, -2, -1, 1⟩

/-- Concrete grid whose slip-rate range does not divide evenly:
`(s_max - s_min)/s_step = 2.4`. -/
def cfgC4 : GridCfg := ⟨0, 6/5, 1/2, 1, 2, 1⟩

/-! ## Basic lemmas about the misfit evaluator -/

lemma wrssKernel_nil (e : List ℝ) : wrssKernel [] e = 0 := by
  simp [wrssKernel]

lemma wrssKernel_cons (r : ℝ) (rs : List ℝ) (e : ℝ) (es : List ℝ) :
    wrssKernel (r :: rs) (e :: es) = r * e ^ 2 * r + wrssKernel rs es := by
  simp [wrssKernel]

lemma wrssKernel_nonneg (r e : List ℝ) : 0 ≤ wrssKernel r e := by
  induction r generalizing e with
  | nil => simp [wrssKernel]
  | cons a rs ih =>
    cases e with
    | nil => simp [wrssKernel]
    | cons b es =>
      rw [wrssKernel_cons]
      have h1 : a * b ^ 2 * a = (a * b) ^ 2 := by ring
      have h2 := sq_nonneg (a * b)
      have h3 := ih es
      linarith

lemma wrssKernel_eq_zero_iff (r e : List ℝ) (hlen : r.length = e.length)
    (hpos : ∀ x ∈ e, 0 < x) : wrssKernel r e = 0 ↔ ∀ x ∈ r, x = 0 := by
  induction r generalizing e with
  | nil => simp [wrssKernel]
  | cons a rs ih =>
    cases e with
    | nil => simp at hlen
    | cons b es =>
      have hb : 0 < b := hpos b (by simp)
      have hlen' : rs.length = es.length := by simpa using hlen
      have hpos' : ∀ x ∈ es, 0 < x := fun x hx => hpos x (by simp [hx])
      rw [wrssKernel_cons]
      have hterm : a * b ^ 2 * a = (a * b) ^ 2 := by ring
      constructor
      · intro h
        have h1 : (a * b) ^ 2 = 0 ∧ wrssKernel rs es = 0 := by
          have := wrssKernel_nonneg rs es
          have := sq_nonneg (a * b)
          constructor <;> nlinarith
        have ha : a = 0 := by
          have hab : a * b = 0 := by
            have := h1.1
            exact pow_eq_zero_iff (n := 2) (by norm_num) |>.mp this
          rcases mul_eq_zero.mp hab with h' | h'
          · exact h'
          · exact absurd h' hb.ne'
        intro x hx
        rcases List.mem_cons.mp hx with h' | h'
        · rw [h', ha]
        · exact ((ih es hlen' hpos').mp h1.2) x h'
      · intro h
        have ha : a = 0 := h a (by simp)
        have hrs : wrssKernel rs es = 0 :=
          (ih es hlen' hpos').mpr fun x hx => h x (by simp [hx])
        rw [ha, hrs]; ring

lemma resid_self (v : List ℝ) : resid v v = List.replicate v.length 0 := by
  induction v with
  | nil => simp [resid]
  | cons a vs ih =>
    simp only [resid, List.zipWith_cons_cons, List.length_cons, List.replicate_succ, sub_self]
    exact congrArg (List.cons 0) ih

lemma resid_length (a b : List ℝ) : (resid a b).length = min a.length b.length := by
  simp [resid]

lemma resid_eq_zero_iff (a b : List ℝ) (hlen : a.length = b.length) :
    (∀ x ∈ resid a b, x = 0) ↔ a = b := by
  induction a generalizing b with
  | nil =>
    cases b with
    | nil => simp [resid]
    | cons y ys => simp at hlen
  | cons x xs ih =>
    cases b with
    | nil => simp at hlen
    | cons y ys =>
      have hlen' : xs.length = ys.length := by simpa using hlen
      simp only [resid, List.zipWith_cons_cons, List.mem_cons]
      constructor
      · intro h
        have hx : x = y := by have := h _ (Or.inl rfl); linarith
        have : xs = ys := (ih ys hlen').mp (by
          intro z hz; exact h z (Or.inr (by simpa [resid] using hz)))
        simp [hx, this]
      · intro h
        obtain ⟨h1, h2⟩ := List.cons.injEq x xs y ys ▸ h
        intro z hz
        rcases hz with hz | hz
        · simp [h1] at hz ⊢; linarith [hz]
        · subst h2
          have := (resid_self xs)
          rw [resid] at this
          rw [this] at hz
          exact List.eq_of_mem_replicate hz

lemma WRSS_self (v e : List ℝ) : WRSS v v e = 0 := by
  rw [WRSS, resid_self]
  induction e generalizing v with
  | nil =>
    cases h : List.replicate v.length (0 : ℝ) with
    | nil => simp [wrssKernel]
    | cons a l => simp [wrssKernel]
  | cons b es ih =>
    cases v with
    | nil => simp [wrssKernel]
    | cons a vs =>
      simp only [List.length_cons, List.replicate_succ, wrssKernel_cons]
      have := ih vs
      simp only [wrssKernel] at this ⊢
      rw [this]; ring

/-- C1 helper fact: on the two-station input with equal residuals `1` and
stated errors `1` and `2`, the notebook's evaluator yields `1*1 + 1*4 = 5`. -/
lemma WRSS_two_station : WRSS [1, 1] [0, 0] [1, 2] = 5 := by
  norm_num [WRSS, resid, wrssKernel]

/-- C1: the notebook's `WRSS` multiplies each squared residual by `sigma^2`
(`np.diag(v_err**2)`), so with residuals fixed at `1` the station with
stated error `2` contributes `4` while the station with error `1`
contributes `1`: the larger-error station contributes MORE, not less. The
claim (and the spec's stated requirement `w_i = 1/sigma_i^2`) is the
standard WRSS convention; the notebook's weighting inverts it, which the
spec itself flags as a latent defect. -/
theorem C1_sigma_weighting :
    WRSS [1, 1] [0, 0] [1, 2] = 5 ∧
    WRSS [1] [0] [1] = 1 ∧
    WRSS [1] [0] [2] = 4 ∧
    WRSS [1] [0] [1] < WRSS [1] [0] [2] := by
  refine ⟨WRSS_two_station, ?_, ?_, ?_⟩ <;> norm_num [WRSS, resid, wrssKernel]

/-- C6: the forward model returns exactly `(s/pi) * arctan(x/D) + offset`,
is deterministic (equal arguments give equal results), and its vectorised
form maps an ordered sequence of distances to a same-length ordered
sequence of pointwise predictions. -/
theorem C6_forward_model (x s D offset x' s' D' o' : ℝ) (xs : List ℝ)
    (hD : D ≠ 0) (h1 : x' = x) (h2 : s' = s) (h3 : D' = D) (h4 : o' = offset) :
    v_forward s D offset x = (s / Real.pi) * Real.arctan (x / D) + offset ∧
    v_forward s' D' o' x' = v_forward s D offset x ∧
    (v_forward_vec s D offset xs).length = xs.length ∧
    ∀ i : ℕ, ∀ hi : i < xs.length,
      (v_forward_vec s D offset xs).getD i 0 = v_forward s D offset (xs.getD i 0) := by
  refine ⟨rfl, by rw [h1, h2, h3, h4], by simp [v_forward_vec], ?_⟩
  intro i hi
  simp [v_forward_vec, List.getD_eq_getElem?_getD, List.getElem?_map]
  rcases h : xs[i]? with _ | y
  · simp [List.getElem?_eq_none_iff] at h; omega
  · simp [h]

/-- C6 witness at `x = 1, s = 2, D = 3, offset = 4` and distance list `[5, 6]`. -/
theorem C6_forward_model_witness :
    v_forward 2 3 4 1 = (2 / Real.pi) * Real.arctan (1 / 3) + 4 ∧
    v_forward 2 3 4 1 = v_forward 2 3 4 1 ∧
    (v_forward_vec 2 3 4 [5, 6]).length = ([5, 6] : List ℝ).length ∧
    ∀ i : ℕ, ∀ hi : i < ([5, 6] : List ℝ).length,
      (v_forward_vec 2 3 4 [5, 6]).getD i 0 = v_forward 2 3 4 (([5, 6] : List ℝ).getD i 0) :=
  C6_forward_model 1 2 3 4 1 2 3 4 [5, 6] (by norm_num) rfl rfl rfl rfl

/-- C7: for positive locking depth the forward model is odd in `x` about the
offset, and evaluates to exactly the offset at `x = 0`. -/
theorem C7_oddness (x s D offset : ℝ) (hD : 0 < D) :
    v_forward s D offset (-x) - offset = -(v_forward s D offset x - offset) ∧
    v_forward s D offset 0 = offset := by
  constructor
  · simp only [v_forward, neg_div, Real.arctan_neg]
    ring
  · simp [v_forward, Real.arctan_zero]

/-- C7 witness at `x = 1, s = 2, D = 3, offset = 4`. -/
theorem C7_oddness_witness :
    (0 : ℝ) < 3 ∧
    (v_forward 2 3 4 (-1) - 4 = -(v_forward 2 3 4 1 - 4) ∧
      v_forward 2 3 4 0 = 4) :=
  ⟨by norm_num, C7_oddness 1 2 3 4 (by norm_num)⟩

/-- C8: the velocity projector is the dot product of the (east, north)
velocity with the unit fault-parallel vector, the propagated error is
`sqrt((ee*ue)^2 + (en*un)^2)`, and on the spec's concrete inputs: velocity
`(3,4)` with unit vector `(1,0)` projects to `3`, and errors `(0.1, 0.2)`
with that unit vector propagate to `0.1` (no leakage from the orthogonal
component). -/
theorem C8_velocity_projector (ve vn ee en ue un : ℝ) :
    v_data_of ve vn ue un = ve * ue + vn * un ∧
    v_err_of ee en ue un = Real.sqrt ((ee * ue) ^ 2 + (en * un) ^ 2) ∧
    v_data_of 3 4 1 0 = 3 ∧
    v_err_of (1/10) (2/10) 1 0 = 1/10 := by
  refine ⟨rfl, rfl, by norm_num [v_data_of], ?_⟩
  have h : ((1:ℝ)/10 * 1) ^ 2 + ((2:ℝ)/10 * 0) ^ 2 = (1/10) ^ 2 := by norm_num
  rw [v_err_of, h, Real.sqrt_sq (by norm_num : (0:ℝ) ≤ 1/10)]

/-- C9: with every stated error positive, the notebook's misfit evaluator is
nonnegative, vanishes exactly when the modeled velocities equal the observed
ones, and in particular vanishes on an exact fit. (This holds despite the
sigma-squared weighting, because positive weights of either convention keep
the quadratic form positive definite.) -/
theorem C9_nonneg_zero_iff (v_obs v_model v_err : List ℝ)
    (hlen1 : v_obs.length = v_model.length)
    (hlen2 : v_obs.length = v_err.length)
    (hpos : ∀ e ∈ v_err, 0 < e) :
    0 ≤ WRSS v_obs v_model v_err ∧
    (WRSS v_obs v_model v_err = 0 ↔ v_obs = v_model) ∧
    WRSS v_obs v_obs v_err = 0 := by
  refine ⟨wrssKernel_nonneg _ _, ?_, WRSS_self _ _⟩
  have hrl : (resid v_obs v_model).length = v_err.length := by
    rw [resid_length, hlen1, min_self, ← hlen1, hlen2]
  rw [WRSS, wrssKernel_eq_zero_iff _ _ hrl hpos]
  exact resid_eq_zero_iff v_obs v_model hlen1

/-- C9 witness on the one-station set `v_obs = [1], v_model = [1], sigma = [2]`. -/
theorem C9_nonneg_zero_iff_witness :
    0 ≤ WRSS [1] [1] [2] ∧
    (WRSS [1] [1] [2] = 0 ↔ ([1] : List ℝ) = [1]) ∧
    WRSS [1] [1] [2] = 0 :=
  C9_nonneg_zero_iff [1] [1] [2] rfl rfl (by norm_num)

/-! ## Geometry lemmas -/

lemma radians_degrees_sub_ninety (r : ℝ) :
    radians (degrees r - 90) = r - Real.pi / 2 := by
  rw [radians, degrees]
  field_simp
  ring

lemma sin_sub_half_pi (r : ℝ) : Real.sin (r - Real.pi / 2) = -Real.cos r := by
  rw [Real.sin_sub, Real.sin_pi_div_two, Real.cos_pi_div_two]
  ring

lemma cos_sub_half_pi (r : ℝ) : Real.cos (r - Real.pi / 2) = Real.sin r := by
  rw [Real.cos_sub, Real.sin_pi_div_two, Real.cos_pi_div_two]
  ring

lemma fault_length_sq (f : Fault) :
    fault_length f ^ 2 = (f.x2 - f.x1) ^ 2 + (f.y2 - f.y1) ^ 2 := by
  rw [fault_length]
  exact Real.sq_sqrt (by positivity)

lemma fault_uv_unit (f : Fault) (hL : fault_length f ≠ 0) :
    fault_dx f ^ 2 + fault_dy f ^ 2 = 1 := by
  rw [fault_dx, fault_dy, div_pow, div_pow, div_add_div_same, ← fault_length_sq]
  exact div_self (pow_ne_zero 2 hL)

lemma fault_abs_one (f : Fault) (hL : fault_length f ≠ 0) :
    Complex.abs ⟨fault_dy f, fault_dx f⟩ = 1 := by
  rw [Complex.abs_apply, Complex.normSq_mk]
  have h : fault_dy f * fault_dy f + fault_dx f * fault_dx f = 1 := by
    have := fault_uv_unit f hL
    nlinarith
  rw [h, Real.sqrt_one]

lemma fault_mk_ne_zero (f : Fault) (hL : fault_length f ≠ 0) :
    (⟨fault_dy f, fault_dx f⟩ : ℂ) ≠ 0 := by
  intro h
  have := fault_abs_one f hL
  rw [h] at this
  simp at this

/-- With a nondegenerate fault, the profile unit vector built through the
strike-angle trigonometry is exactly the rotated fault vector
`(-fault_dy, fault_dx)`. -/
lemma prof_dx_eq (f : Fault) (hL : fault_length f ≠ 0) :
    prof_dx f = -fault_dy f := by
  rw [prof_dx, fault_strike, radians_degrees_sub_ninety, sin_sub_half_pi, arctan2,
    Complex.cos_arg (fault_mk_ne_zero f hL), fault_abs_one f hL]
  simp

lemma prof_dy_eq (f : Fault) (hL : fault_length f ≠ 0) :
    prof_dy f = fault_dx f := by
  rw [prof_dy, fault_strike, radians_degrees_sub_ninety, cos_sub_half_pi, arctan2,
    Complex.sin_arg, fault_abs_one f hL]
  simp

/-- The profile origin collapses to the fault segment midpoint: the box
corners' symmetric offsets cancel. -/
lemma profile_origin_eq (f : Fault) (h : ℝ) :
    profile_origin f h = ((f.x1 + f.x2) / 2, (f.y1 + f.y2) / 2) := by
  rw [profile_origin, prof_vertex1, prof_vertex2, box_v1, box_v2, box_v3, box_v4]
  rw [Prod.mk.injEq]
  constructor <;> ring

/-- With a nondegenerate fault, the projector reduces to the dot product of
the station position relative to the fault midpoint with `(-fault_dy, fault_dx)`. -/
lemma x_data_eq (f : Fault) (h : ℝ) (hL : fault_length f ≠ 0) (sx sy : ℝ) :
    x_data f h sx sy =
      ((sx - (f.x1 + f.x2) / 2) * (-(fault_dy f)) +
       (sy - (f.y1 + f.y2) / 2) * fault_dx f) / 1000 := by
  rw [x_data, profile_origin_eq, prof_dx_eq f hL, prof_dy_eq f hL]

/-- C10: whenever the fault has nonzero length, the fault-parallel vector
`(fault_dx, fault_dy)` and the profile vector `(prof_dx, prof_dy)` are both
unit vectors and are mutually orthogonal. -/
theorem C10_orthonormal (f : Fault) (hL : fault_length f ≠ 0) :
    fault_dx f ^ 2 + fault_dy f ^ 2 = 1 ∧
    prof_dx f ^ 2 + prof_dy f ^ 2 = 1 ∧
    fault_dx f * prof_dx f + fault_dy f * prof_dy f = 0 := by
  refine ⟨fault_uv_unit f hL, ?_, ?_⟩
  · rw [prof_dx_eq f hL, prof_dy_eq f hL]
    have := fault_uv_unit f hL
    nlinarith
  · rw [prof_dx_eq f hL, prof_dy_eq f hL]
    ring

lemma faultNS_length : fault_length faultNS = 2 := by
  have h : fault_length faultNS = Real.sqrt 4 := by
    rw [fault_length]
    norm_num [faultNS]
  rw [h, show (4:ℝ) = 2 ^ 2 by norm_num, Real.sqrt_sq (by norm_num : (0:ℝ) ≤ 2)]

/-- C10 witness on the concrete fault from `(0,0)` to `(0,2)`. -/
theorem C10_orthonormal_witness :
    fault_length faultNS ≠ 0 ∧
    (fault_dx faultNS ^ 2 + fault_dy faultNS ^ 2 = 1 ∧
     prof_dx faultNS ^ 2 + prof_dy faultNS ^ 2 = 1 ∧
     fault_dx faultNS * prof_dx faultNS + fault_dy faultNS * prof_dy faultNS = 0) := by
  have hL : fault_length faultNS ≠ 0 := by rw [faultNS_length]; norm_num
  exact ⟨hL, C10_orthonormal faultNS hL⟩

/-! ## Coordinate Projector theorems -/

/-- C3 corrected: the signed profile distance is the dot product of the
station position relative to the fault midpoint with the unit
fault-NORMAL (profile) vector `(-fault_dy, fault_dx)`, scaled by `1/1000`
(meters to kilometers); consequently both fault endpoints project to
distance `0`, not to half the fault length. -/
theorem C3_projection (f : Fault) (h sx sy : ℝ) (hL : fault_length f ≠ 0) :
    x_data f h sx sy =
      ((sx - (f.x1 + f.x2) / 2) * (-(fault_dy f)) +
       (sy - (f.y1 + f.y2) / 2) * fault_dx f) / 1000 ∧
    x_data f h f.x1 f.y1 = 0 ∧
    x_data f h f.x2 f.y2 = 0 := by
  refine ⟨x_data_eq f h hL sx sy, ?_, ?_⟩ <;> rw [x_data_eq f h hL] <;>
    rw [fault_dx, fault_dy] <;> field_simp <;> ring

/-- C3 witness at the concrete fault `(0,0)-(0,2)`, half-length 50 km,
station at `(7, 9)`. -/
theorem C3_projection_witness :
    fault_length faultNS ≠ 0 ∧
    (x_data faultNS 50 7 9 =
      ((7 - (faultNS.x1 + faultNS.x2) / 2) * (-(fault_dy faultNS)) +
       (9 - (faultNS.y1 + faultNS.y2) / 2) * fault_dx faultNS) / 1000 ∧
     x_data faultNS 50 faultNS.x1 faultNS.y1 = 0 ∧
     x_data faultNS 50 faultNS.x2 faultNS.y2 = 0) := by
  have hL : fault_length faultNS ≠ 0 := by rw [faultNS_length]; norm_num
  exact ⟨hL, C3_projection faultNS 50 7 9 hL⟩

lemma faultNS_dx : fault_dx faultNS = 0 := by
  rw [fault_dx, faultNS_length]
  norm_num [faultNS]

lemma faultNS_dy : fault_dy faultNS = 1 := by
  rw [fault_dy, faultNS_length]
  norm_num [faultNS]

lemma faultNS_x_data_zero : x_data faultNS 50 0 0 = 0 := by
  have hL : fault_length faultNS ≠ 0 := by rw [faultNS_length]; norm_num
  have h := x_data_eq faultNS 50 hL 0 0
  rw [h, faultNS_dx, faultNS_dy]
  norm_num [faultNS]

/-- C3 counterexample: on the fault from `(0,0)` to `(0,2)` (length 2), the
station located exactly at the first fault endpoint `(0,0)` projects to
distance `0`, whose magnitude differs from half the fault length under
either unit convention (meters or kilometers); moreover the projector's
output differs from the dot product with the unit fault-PARALLEL vector
that the claim prescribes. -/
theorem C3_endpoint_cex :
    x_data faultNS 50 0 0 = 0 ∧
    fault_length faultNS = 2 ∧
    |x_data faultNS 50 0 0| ≠ fault_length faultNS / 2 ∧
    |x_data faultNS 50 0 0| ≠ fault_length faultNS / 2 / 1000 ∧
    x_data faultNS 50 0 0 ≠
      ((0 - (profile_origin faultNS 50).1) * fault_dx faultNS +
       (0 - (profile_origin faultNS 50).2) * fault_dy faultNS) / 1000 := by
  have h0 := faultNS_x_data_zero
  refine ⟨h0, faultNS_length, ?_, ?_, ?_⟩
  · rw [h0, faultNS_length]; norm_num
  · rw [h0, faultNS_length]; norm_num
  · rw [h0, profile_origin_eq, faultNS_dx, faultNS_dy]
    norm_num [faultNS]

/-! ## Lemmas about the list minimum -/

lemma listMin_eq_none_iff (l : List ℝ) : listMin l = none ↔ l = [] := by
  cases l <;> simp [listMin]

lemma listMin_isSome (l : List ℝ) (h : l ≠ []) : ∃ m, listMin l = some m := by
  cases hm : listMin l with
  | none => exact absurd ((listMin_eq_none_iff l).mp hm) h
  | some m => exact ⟨m, rfl⟩

lemma listMin_le (l : List ℝ) (m : ℝ) (hm : listMin l = some m) :
    ∀ x ∈ l, m ≤ x := by
  induction l generalizing m with
  | nil => simp [listMin] at hm
  | cons a t ih =>
    intro x hx
    rw [listMin] at hm
    cases hmt : listMin t with
    | none =>
      rw [hmt] at hm
      have ha : m = a := by simpa [Option.elim] using hm.symm
      have ht : t = [] := (listMin_eq_none_iff t).mp hmt
      rcases List.mem_cons.mp hx with h' | h'
      · rw [ha, h']
      · rw [ht] at h'; simp at h'
    | some m' =>
      rw [hmt] at hm
      have hmin : m = min a m' := by simpa [Option.elim] using hm.symm
      rcases List.mem_cons.mp hx with h' | h'
      · rw [hmin, h']; exact min_le_left a m'
      · calc m ≤ m' := hmin ▸ min_le_right a m'
          _ ≤ x := ih m' hmt x h'

lemma listMin_replicate_zero (n : ℕ) :
    listMin (List.replicate (n + 1) (0 : ℝ)) = some 0 := by
  induction n with
  | zero =>
    rw [List.replicate_succ, List.replicate_zero, listMin, listMin]
    simp
  | succ k ih =>
    rw [List.replicate_succ, listMin, ih]
    simp

/-! ## Grid Search Optimizer theorems -/

/-- C4 corrected (general part): the grid evaluated by the nested loop has
exactly `n_D * n_s` cells, where `n_s = round(1+(s_max-s_min)/s_step)` and
`n_D = round(1+(D_max-D_min)/D_step)` with Python's round-half-to-even; each
cell is one Misfit Evaluator invocation. -/
theorem C4_grid_size (c : GridCfg) :
    (cells c).length = n_D c * n_s c ∧
    n_s c = (pyRound (1 + (c.s_max - c.s_min) / c.s_step)).toNat ∧
    n_D c = (pyRound (1 + (c.D_max - c.D_min) / c.D_step)).toNat := by
  refine ⟨?_, rfl, rfl⟩
  rw [cells, List.length_flatMap]
  simp only [Function.comp_def, List.length_map, List.length_range]
  rw [List.map_const', List.sum_replicate, List.length_range, smul_eq_mul]

lemma pyRound_int (z : ℤ) : pyRound (z : ℚ) = z := by
  rw [pyRound, Int.floor_intCast]
  norm_num

lemma n_s_cfgTie : n_s cfgTie = 2 := by
  rw [n_s]
  have h : (1 + (cfgTie.s_max - cfgTie.s_min) / cfgTie.s_step : ℚ) = ((2 : ℤ) : ℚ) := by
    norm_num [cfgTie]
  rw [h, pyRound_int]
  rfl

lemma n_D_cfgTie : n_D cfgTie = 2 := by
  rw [n_D]
  have h : (1 + (cfgTie.D_max - cfgTie.D_min) / cfgTie.D_step : ℚ) = ((2 : ℤ) : ℚ) := by
    norm_num [cfgTie]
  rw [h, pyRound_int]
  rfl

lemma cells_cfgTie : cells cfgTie = [(0, 0), (0, 1), (1, 0), (1, 1)] := by
  rw [cells]
  simp only [n_s_cfgTie, n_D_cfgTie]
  decide

lemma s_set_cfgTie : s_set cfgTie = [10, 11] := by
  rw [s_set, n_s_cfgTie]
  norm_num [linspace, List.range_succ, cfgTie]

lemma D_set_cfgTie : D_set cfgTie = [1, 2] := by
  rw [D_set, n_D_cfgTie]
  norm_num [linspace, List.range_succ, cfgTie]

/-- With a single station at profile distance `0`, the per-cell offset
absorbs the whole residual, so every grid cell's penalty is `0`. -/
lemma cellWRSS_single_zero (v e s D : ℝ) : cellWRSS [0] [v] [e] s D = 0 := by
  simp [cellWRSS, cellShift, mean, resid, wrssKernel]

lemma penaltyAt_cfgTie_zero (ij : ℕ × ℕ) : penaltyAt cfgTie [0] [5] [1] ij = 0 := by
  rw [penaltyAt]
  exact cellWRSS_single_zero 5 1 _ _

lemma surface_cfgTie : surface cfgTie [0] [5] [1] = [0, 0, 0, 0] := by
  rw [surface, cells_cfgTie]
  simp [penaltyAt_cfgTie_zero]

lemma WRSS_best_cfgTie : WRSS_best cfgTie [0] [5] [1] = 0 := by
  rw [WRSS_best, surface_cfgTie]
  simp [listMin]

lemma best_models_cfgTie : best_models cfgTie [0] [5] [1] = cells cfgTie := by
  rw [best_models]
  apply List.filter_eq_self.mpr
  intro a _
  simp [penaltyAt_cfgTie_zero, WRSS_best_cfgTie]

/-- C2 counterexample: on the 2-by-2 grid `s in {10, 11}, D in {1, 2}` with
a single station at profile distance 0, every cell attains the minimal
penalty 0, and the best-model extraction returns NOTHING (numpy's `.item()`
raises `ValueError` on the 4-element index set) instead of the first cell
`(s, D) = (10, 1)` in row-major order that the claim promises. -/
theorem C2_tie_cex :
    penaltyAt cfgTie [0] [5] [1] (0, 0) = 0 ∧
    penaltyAt cfgTie [0] [5] [1] (0, 1) = 0 ∧
    penaltyAt cfgTie [0] [5] [1] (1, 0) = 0 ∧
    penaltyAt cfgTie [0] [5] [1] (1, 1) = 0 ∧
    gridSearch cfgTie [0] [5] [1] = none := by
  refine ⟨penaltyAt_cfgTie_zero _, penaltyAt_cfgTie_zero _,
    penaltyAt_cfgTie_zero _, penaltyAt_cfgTie_zero _, ?_⟩
  unfold gridSearch
  rw [best_models_cfgTie, cells_cfgTie]
  norm_num

/-- C2 corrected: whenever the grid search returns a pair `(sb, Db)`, that
pair sits at a grid cell whose penalty is a minimum of the whole penalty
surface, the minimising cell is UNIQUE (on ties the extraction fails
instead of picking the first row-major cell), and the per-cell offset is
the analytic mean of the residuals `v_data - v_forward` (forward model
without shift). -/
theorem C2_argmin (c : GridCfg) (xd vd ve : List ℝ) (sb Db : ℝ)
    (hres : gridSearch c xd vd ve = some (sb, Db)) :
    ∃ ij ∈ cells c,
      sb = (s_set c).getD ij.2 0 ∧
      Db = (D_set c).getD ij.1 0 ∧
      (∀ kl ∈ cells c, penaltyAt c xd vd ve ij ≤ penaltyAt c xd vd ve kl) ∧
      (∀ kl ∈ cells c, penaltyAt c xd vd ve kl = penaltyAt c xd vd ve ij → kl = ij) ∧
      cellShift xd vd sb Db =
        mean (resid vd (xd.map fun x => (sb / Real.pi) * Real.arctan (x / Db))) := by
  unfold gridSearch at hres
  by_cases h1 : (best_models c xd vd ve).length = 1
  case neg => rw [if_neg h1] at hres; exact absurd hres (by simp)
  case pos =>
  rw [if_pos h1] at hres
  obtain ⟨ij, hij⟩ := List.length_eq_one.mp h1
  rw [hij] at hres
  simp only [List.headD_cons, Option.some.injEq, Prod.mk.injEq] at hres
  obtain ⟨hsb, hDb⟩ := hres
  have hmemf : ij ∈ best_models c xd vd ve := by
    rw [hij]; exact List.mem_singleton_self ij
  rw [best_models] at hmemf hij
  obtain ⟨hcell, hpredb⟩ := List.mem_filter.mp hmemf
  have hpij : penaltyAt c xd vd ve ij = WRSS_best c xd vd ve :=
    of_decide_eq_true hpredb
  have hsne : surface c xd vd ve ≠ [] := by
    rw [surface]
    intro h
    rw [List.map_eq_nil_iff] at h
    rw [h] at hcell
    simp at hcell
  obtain ⟨m, hm⟩ := listMin_isSome _ hsne
  have hwb : WRSS_best c xd vd ve = m := by
    rw [WRSS_best, hm, Option.getD_some]
  refine ⟨ij, hcell, hsb.symm, hDb.symm, ?_, ?_, rfl⟩
  · intro kl hkl
    rw [hpij, hwb]
    exact listMin_le _ _ hm _ (List.mem_map_of_mem _ hkl)
  · intro kl hkl hkeq
    have hklf : kl ∈ (cells c).filter
        fun ij => decide (penaltyAt c xd vd ve ij = WRSS_best c xd vd ve) := by
      apply List.mem_filter.mpr
      refine ⟨hkl, ?_⟩
      rw [decide_eq_true_eq, hkeq, hpij]
    rw [hij] at hklf
    exact List.mem_singleton.mp hklf

lemma n_s_cfgOne : n_s cfgOne = 1 := by
  rw [n_s]
  have h : (1 + (cfgOne.s_max - cfgOne.s_min) / cfgOne.s_step : ℚ) = ((1 : ℤ) : ℚ) := by
    norm_num [cfgOne]
  rw [h, pyRound_int]
  rfl

lemma n_D_cfgOne : n_D cfgOne = 1 := by
  rw [n_D]
  have h : (1 + (cfgOne.D_max - cfgOne.D_min) / cfgOne.D_step : ℚ) = ((1 : ℤ) : ℚ) := by
    norm_num [cfgOne]
  rw [h, pyRound_int]
  rfl

lemma cells_cfgOne : cells cfgOne = [(0, 0)] := by
  rw [cells]
  simp only [n_s_cfgOne, n_D_cfgOne]
  decide

lemma s_set_cfgOne : s_set cfgOne = [1] := by
  rw [s_set, n_s_cfgOne]
  norm_num [linspace, cfgOne]

lemma D_set_cfgOne : D_set cfgOne = [1] := by
  rw [D_set, n_D_cfgOne]
  norm_num [linspace, cfgOne]

lemma penaltyAt_cfgOne_zero (ij : ℕ × ℕ) : penaltyAt cfgOne [0] [5] [1] ij = 0 := by
  rw [penaltyAt]
  exact cellWRSS_single_zero 5 1 _ _

lemma WRSS_best_cfgOne : WRSS_best cfgOne [0] [5] [1] = 0 := by
  rw [WRSS_best, surface, cells_cfgOne]
  simp [penaltyAt_cfgOne_zero, listMin]

lemma best_models_cfgOne : best_models cfgOne [0] [5] [1] = [(0, 0)] := by
  rw [best_models]
  have h : cells cfgOne = [(0, 0)] := cells_cfgOne
  rw [h]
  simp [penaltyAt_cfgOne_zero, WRSS_best_cfgOne]

lemma gridSearch_cfgOne : gridSearch cfgOne [0] [5] [1] = some (1, 1) := by
  unfold gridSearch
  rw [best_models_cfgOne]
  simp [s_set_cfgOne, D_set_cfgOne]

/-- C2 witness on the one-cell grid `s = 1, D = 1` with a single station at
distance 0: the search returns `(1, 1)` and the amended theorem applies. -/
theorem C2_argmin_witness :
    gridSearch cfgOne [0] [5] [1] = some (1, 1) ∧
    ∃ ij ∈ cells cfgOne,
      (1 : ℝ) = (s_set cfgOne).getD ij.2 0 ∧
      (1 : ℝ) = (D_set cfgOne).getD ij.1 0 ∧
      (∀ kl ∈ cells cfgOne,
        penaltyAt cfgOne [0] [5] [1] ij ≤ penaltyAt cfgOne [0] [5] [1] kl) ∧
      (∀ kl ∈ cells cfgOne,
        penaltyAt cfgOne [0] [5] [1] kl = penaltyAt cfgOne [0] [5] [1] ij → kl = ij) ∧
      cellShift [0] [5] (1 : ℝ) 1 =
        mean (resid [5] (([0] : List ℝ).map fun x => ((1 : ℝ) / Real.pi) * Real.arctan (x / 1))) :=
  ⟨gridSearch_cfgOne, C2_argmin cfgOne [0] [5] [1] 1 1 gridSearch_cfgOne⟩

lemma n_s_cfgNeg : n_s cfgNeg = 1 := by
  rw [n_s]
  have h : (1 + (cfgNeg.s_max - cfgNeg.s_min) / cfgNeg.s_step : ℚ) = ((1 : ℤ) : ℚ) := by
    norm_num [cfgNeg]
  rw [h, pyRound_int]
  rfl

lemma n_D_cfgNeg : n_D cfgNeg = 2 := by
  rw [n_D]
  have h : (1 + (cfgNeg.D_max - cfgNeg.D_min) / cfgNeg.D_step : ℚ) = ((2 : ℤ) : ℚ) := by
    norm_num [cfgNeg]
  rw [h, pyRound_int]
  rfl

lemma cells_cfgNeg : cells cfgNeg = [(0, 0), (1, 0)] := by
  rw [cells]
  simp only [n_s_cfgNeg, n_D_cfgNeg]
  decide

lemma s_set_cfgNeg : s_set cfgNeg = [1] := by
  rw [s_set, n_s_cfgNeg]
  norm_num [linspace, cfgNeg]

lemma D_set_cfgNeg : D_set cfgNeg = [-2, -1] := by
  rw [D_set, n_D_cfgNeg]
  norm_num [linspace, List.range_succ, cfgNeg]

/-- With stations at distances `0` and `1`, zero observed velocities and
unit errors, one grid cell's penalty reduces to a closed form in
`arctan(1/D)`. -/
lemma cellWRSS_pair (s D : ℝ) :
    cellWRSS [0, 1] [0, 0] [1, 1] s D
      = ((s / Real.pi) * Real.arctan (1 / D)) ^ 2 / 2 := by
  have hsh : cellShift [0, 1] [0, 0] s D
      = -((s / Real.pi) * Real.arctan (1 / D)) / 2 := by
    simp [cellShift, mean, resid]
  rw [cellWRSS, hsh]
  simp only [List.map_cons, List.map_nil, zero_div, Real.arctan_zero, mul_zero,
    List.zipWith_cons_cons, List.zipWith_nil_right, wrssKernel, List.sum_cons,
    List.sum_nil, one_pow]
  ring

lemma arctan_sq_lt : (Real.arctan (1 / 2)) ^ 2 < (Real.arctan 1) ^ 2 := by
  have h0 : 0 < Real.arctan (1 / 2) := by
    have h := Real.arctan_strictMono (show (0 : ℝ) < 1 / 2 by norm_num)
    simpa [Real.arctan_zero] using h
  have hlt : Real.arctan (1 / 2) < Real.arctan 1 :=
    Real.arctan_strictMono (by norm_num)
  nlinarith

/-- The penalty at `D = -2` is strictly below the penalty at `D = -1`. -/
lemma penalty_neg_lt :
    ((1 / Real.pi) * Real.arctan (1 / (-2 : ℝ))) ^ 2 / 2
      < ((1 / Real.pi) * Real.arctan (1 / (-1 : ℝ))) ^ 2 / 2 := by
  have h1 : Real.arctan (1 / (-2 : ℝ)) = -Real.arctan (1 / 2) := by
    rw [show (1 : ℝ) / (-2) = -(1 / 2) by norm_num, Real.arctan_neg]
  have h2 : Real.arctan (1 / (-1 : ℝ)) = -Real.arctan 1 := by
    rw [show (1 : ℝ) / (-1) = -(1 : ℝ) by norm_num, Real.arctan_neg]
  have hinv : (0 : ℝ) < (1 / Real.pi) ^ 2 := by
    have := Real.pi_pos
    positivity
  have hmul := mul_lt_mul_of_pos_left arctan_sq_lt hinv
  rw [h1, h2]
  calc ((1 / Real.pi) * -Real.arctan (1 / 2)) ^ 2 / 2
      = (1 / Real.pi) ^ 2 * (Real.arctan (1 / 2)) ^ 2 / 2 := by ring
    _ < (1 / Real.pi) ^ 2 * (Real.arctan 1) ^ 2 / 2 := by linarith
    _ = ((1 / Real.pi) * -Real.arctan 1) ^ 2 / 2 := by ring

lemma penaltyAt_cfgNeg_00 :
    penaltyAt cfgNeg [0, 1] [0, 0] [1, 1] (0, 0)
      = ((1 / Real.pi) * Real.arctan (1 / (-2 : ℝ))) ^ 2 / 2 := by
  rw [penaltyAt, s_set_cfgNeg, D_set_cfgNeg]
  exact cellWRSS_pair 1 (-2)

lemma penaltyAt_cfgNeg_10 :
    penaltyAt cfgNeg [0, 1] [0, 0] [1, 1] (1, 0)
      = ((1 / Real.pi) * Real.arctan (1 / (-1 : ℝ))) ^ 2 / 2 := by
  rw [penaltyAt, s_set_cfgNeg, D_set_cfgNeg]
  exact cellWRSS_pair 1 (-1)

lemma surface_cfgNeg :
    surface cfgNeg [0, 1] [0, 0] [1, 1]
      = [((1 / Real.pi) * Real.arctan (1 / (-2 : ℝ))) ^ 2 / 2,
         ((1 / Real.pi) * Real.arctan (1 / (-1 : ℝ))) ^ 2 / 2] := by
  rw [surface, cells_cfgNeg]
  simp only [List.map_cons, List.map_nil]
  rw [penaltyAt_cfgNeg_00, penaltyAt_cfgNeg_10]

lemma WRSS_best_cfgNeg :
    WRSS_best cfgNeg [0, 1] [0, 0] [1, 1]
      = ((1 / Real.pi) * Real.arctan (1 / (-2 : ℝ))) ^ 2 / 2 := by
  rw [WRSS_best, surface_cfgNeg]
  simp only [listMin, Option.elim_none, Option.elim_some, Option.getD_some]
  exact min_eq_left (le_of_lt penalty_neg_lt)

open scoped Classical in
lemma best_models_cfgNeg : best_models cfgNeg [0, 1] [0, 0] [1, 1] = [(0, 0)] := by
  rw [best_models, cells_cfgNeg, List.filter_cons, List.filter_cons, List.filter_nil]
  have h00 : decide (penaltyAt cfgNeg [0, 1] [0, 0] [1, 1] (0, 0)
      = WRSS_best cfgNeg [0, 1] [0, 0] [1, 1]) = true := by
    rw [decide_eq_true_eq, penaltyAt_cfgNeg_00, WRSS_best_cfgNeg]
  have h10 : ¬ (decide (penaltyAt cfgNeg [0, 1] [0, 0] [1, 1] (1, 0)
      = WRSS_best cfgNeg [0, 1] [0, 0] [1, 1]) = true) := by
    rw [decide_eq_true_eq, penaltyAt_cfgNeg_10, WRSS_best_cfgNeg]
    exact ne_of_gt penalty_neg_lt
  rw [if_pos h00, if_neg h10]

/-- On the config with depths `{-2, -1}` (so `D_min <= 0`) the search runs to
completion and returns a numeric best model. -/
lemma gridSearch_cfgNeg : gridSearch cfgNeg [0, 1] [0, 0] [1, 1] = some (1, -2) := by
  unfold gridSearch
  rw [best_models_cfgNeg]
  simp [s_set_cfgNeg, D_set_cfgNeg]

/-- C5 counterexample: the configuration `s in {1}`, `D in {-2, -1}` has
`D_min = -2 <= 0`, yet the grid search performs no validation: it evaluates
every cell and returns the numeric best model `(s, D) = (1, -2)` instead of
rejecting the configuration before the search begins. -/
theorem C5_no_validation_cex :
    cfgNeg.D_min ≤ 0 ∧ gridSearch cfgNeg [0, 1] [0, 0] [1, 1] = some (1, -2) :=
  ⟨by norm_num [cfgNeg], gridSearch_cfgNeg⟩

lemma cellWRSS_nil (s D : ℝ) : cellWRSS [] [] [] s D = 0 := by
  simp [cellWRSS, wrssKernel]

/-- C5 corrected (empty-station part): on an empty station set the code does
not raise an InsufficientDataError; every cell's penalty evaluates to the
numeric value `0` (empty matrix products), and the best-model extraction
then fails on the all-tied surface (numpy `.item()` on a multi-element
index array) whenever the grid has at least two cells. -/
theorem C5_empty_stations (c : GridCfg) (h2 : 2 ≤ (cells c).length) :
    (∀ ij ∈ cells c, penaltyAt c [] [] [] ij = 0) ∧
    gridSearch c [] [] [] = none := by
  have hp : ∀ ij : ℕ × ℕ, penaltyAt c [] [] [] ij = 0 := by
    intro ij
    rw [penaltyAt]
    exact cellWRSS_nil _ _
  refine ⟨fun ij _ => hp ij, ?_⟩
  have hsurf : surface c [] [] [] = List.replicate (cells c).length 0 := by
    have hmc : (cells c).map (penaltyAt c [] [] []) = (cells c).map (fun _ => (0 : ℝ)) :=
      List.map_congr_left (fun ij _ => hp ij)
    rw [surface, hmc, List.map_const']
  have hb : WRSS_best c [] [] [] = 0 := by
    obtain ⟨n, hn⟩ : ∃ n, (cells c).length = n + 1 := ⟨(cells c).length - 1, by omega⟩
    rw [WRSS_best, hsurf, hn, listMin_replicate_zero, Option.getD_some]
  have hbm : best_models c [] [] [] = cells c := by
    rw [best_models]
    apply List.filter_eq_self.mpr
    intro a _
    simp [hp, hb]
  unfold gridSearch
  rw [hbm, if_neg (by omega)]

/-- C5 witness for the empty-station behavior, on the 2-by-2 grid. -/
theorem C5_empty_stations_witness :
    2 ≤ (cells cfgTie).length ∧
    ((∀ ij ∈ cells cfgTie, penaltyAt cfgTie [] [] [] ij = 0) ∧
     gridSearch cfgTie [] [] [] = none) := by
  have h2 : 2 ≤ (cells cfgTie).length := by rw [cells_cfgTie]; norm_num
  exact ⟨h2, C5_empty_stations cfgTie h2⟩

/-- C4 counterexample: with `s` ranging over `[0, 1.2]` in steps of `0.5`,
the code's count is `round(1 + 2.4) = 3` slip-rate values, while the claim's
formula gives `ceil(2.4) + 1 = 4`; the claimed grid size is wrong. -/
theorem C4_count_cex :
    n_s cfgC4 = 3 ∧
    (⌈((cfgC4.s_max - cfgC4.s_min) / cfgC4.s_step : ℚ)⌉ + 1 : ℤ) = 4 ∧
    (n_s cfgC4 : ℤ) ≠ ⌈((cfgC4.s_max - cfgC4.s_min) / cfgC4.s_step : ℚ)⌉ + 1 := by
  have h1 : n_s cfgC4 = 3 := by
    rw [n_s]
    norm_num [pyRound, cfgC4]
    decide
  have h2 : (⌈((cfgC4.s_max - cfgC4.s_min) / cfgC4.s_step : ℚ)⌉ + 1 : ℤ) = 4 := by
    have he : ((cfgC4.s_max - cfgC4.s_min) / cfgC4.s_step : ℚ) = 12 / 5 := by
      norm_num [cfgC4]
    have hc : (⌈(12 / 5 : ℚ)⌉ : ℤ) = 3 := by
      rw [Int.ceil_eq_iff]
      norm_num
    rw [he, hc]
    decide
  exact ⟨h1, h2, by rw [h1, h2]; norm_num⟩

end Ecd
